import Mathlib

set_option maxHeartbeats 1000000
set_option maxRecDepth 100000

/-!
Verification development for the streaming tool-call agent core of the
repository (backend/mcp_agent.py `WebMCPAgent.chat_stream`,
backend/mcp_modules/agent_orchestrator.py `AgentOrchestrator.chat_stream`
and backend/mcp_modules/model_manager.py
`ModelManager.get_or_create_llm_instances`).

The Python code is shallowly embedded: the model client is an oracle
given by a script of finalized stream results (each entry is the outcome
of one `astream_events` invocation: the content tokens streamed before the
finalized output, the finalized content, the finalized tool-call list, or
an exception), the tool registry is a list of named behaviours, and
`json.loads` is an oracle `String → Option Json` (library code external
to the repository).  Yields of the async generator are recorded in order
in an event list; Python dict messages become a `Message` structure.
-/

namespace MCP

/-- JSON-like values: what `json.loads` can return and what normalized
tool arguments look like. -/
inductive Json where
  | null
  | bool (b : Bool)
  | num (n : Int)
  | str (s : String)
  | arr (xs : List Json)
  | obj (kvs : List (String × Json))

/-- A raw Python value sitting in the arguments slot of a tool call:
a string, a dict, or any other value (carrying its `str()` rendering and
its Python truthiness). -/
inductive RawVal where
  | str (s : String)
  | map (kvs : List (String × Json))
  | other (rendered : String) (truthy : Bool)

/-- Python truthiness of a `RawVal` (empty string and empty dict are falsy). -/
def RawVal.isTruthy : RawVal → Bool
  | .str s => s != ""
  | .map kvs => !kvs.isEmpty
  | .other _ t => t

/-- Embedding of `b or {}` for an optional raw value `b`. -/
def coalesce2 (b : Option RawVal) : RawVal :=
  match b with
  | some v => if v.isTruthy then v else RawVal.map []
  | none => RawVal.map []

/-- Embedding of `fn.get(\x27arguments\x27) or tool_call.get(\x27args\x27) or \x7b\x7d`
(mcp_agent.py line 681 and agent_orchestrator.py line 187): Python `or`
falls through on falsy values. -/
def coalesceArgs (a b : Option RawVal) : RawVal :=
  match a with
  | some v => if v.isTruthy then v else coalesce2 b
  | none => coalesce2 b

/-- Embedding of `a or dflt` for an optional string (None and "" are falsy). -/
def pyOrStr (a : Option String) (dflt : String) : String :=
  match a with
  | some s => if s = "" then dflt else s
  | none => dflt

/-- A tool call as extracted from the finalized model output.  The code
reads `tool_call.get(\x27id\x27)`, `(tool_call.get(\x27function\x27) or \x7b\x7d).get(\x27name\x27)`,
`tool_call.get(\x27name\x27)`, `fn.get(\x27arguments\x27)` and `tool_call.get(\x27args\x27)`
(the getattr object branch behaves identically), so the embedding keeps
each of those slots optional. -/
structure ToolCall where
  id : Option String
  fnName : Option String
  tcName : Option String
  fnArgs : Option RawVal
  tcArgs : Option RawVal

/-- `tool_call.get(\x27id\x27) or f"call_\x7bi\x7d"` (mcp_agent.py line 678). -/
def resolveId (tc : ToolCall) (i : Nat) : String :=
  pyOrStr tc.id ("call_" ++ toString i)

/-- `fn.get(\x27name\x27) or tool_call.get(\x27name\x27) or \x27\x27` (mcp_agent.py line 680). -/
def resolveName (tc : ToolCall) : String :=
  pyOrStr tc.fnName (pyOrStr tc.tcName "")

/-- Embedding of the argument-normalization block (mcp_agent.py lines
687-696, duplicated at agent_orchestrator.py lines 204-214):
`json.loads(raw) if raw else \x7b\x7d` guarded by try/except, a dict used
as-is, anything else wrapped as `\x7b"$raw": str(value)\x7d`.  `parse` is
the oracle for `json.loads` (None models a raised exception). -/
def normalizeArgs (parse : String → Option Json) : RawVal → Json
  | .str s =>
    if s = "" then Json.obj []
    else
      match parse s with
      | some j => j
      | none => Json.obj [("$raw", Json.str s)]
  | .map kvs => Json.obj kvs
  | .other rendered _ => Json.obj [("$raw", Json.str rendered)]

/-- The normalization rule exactly as the specification words it:
text is parsed as structured data and on parse failure wrapped as
`\x7b"$raw": text\x7d`; a mapping is used as-is; any other value is wrapped as
`\x7b"$raw": str(value)\x7d`.  (No special case for the empty string.) -/
def normalizeArgsSpec (parse : String → Option Json) : RawVal → Json
  | .str s =>
    match parse s with
    | some j => j
    | none => Json.obj [("$raw", Json.str s)]
  | .map kvs => Json.obj kvs
  | .other rendered _ => Json.obj [("$raw", Json.str rendered)]

/-- Result of invoking one tool: the `str()` of its return value, or a
raised exception message. -/
inductive ToolOutcome where
  | ok (result : String)
  | raise (msg : String)

/-- A registered tool: a name and an invocation behaviour. -/
structure ToolDef where
  name : String
  behavior : Json → ToolOutcome

/-- `for tool in self.tools: if tool.name == tool_name: ...` — first
match by exact name. -/
def findTool (tools : List ToolDef) (n : String) : Option ToolDef :=
  tools.find? (fun t => t.name == n)

/-- Stream events yielded by the generator, keeping the fields the
claims are about.  `endE` carries the `content` field of the
`ai_response_end` event; tool events carry the optional `by_role` tag of
the orchestrator. -/
inductive Event where
  | status
  | start
  | chunk (s : String)
  | endE (s : String)
  | toolPlan (n : Nat)
  | toolStart (tid tname : String) (args : Json) (byRole : Option String)
  | toolEnd (tid tname result : String) (byRole : Option String)
  | toolError (tid err : String) (byRole : Option String)
  | fallbackTriggered (n : Nat)
  | tokenUsage
  | errorEv (s : String)

/-- A chat message dict. -/
structure Message where
  role : String
  content : String
  toolCalls : List ToolCall
  toolCallId : Option String
  name : Option String

/-- The tool result message appended after each tool call. -/
def toolMsg (tid tname content : String) : Message :=
  { role := "tool", content := content, toolCalls := [], toolCallId := some tid, name := some tname }

/-- The assistant message carrying the tool-call list (mcp_agent.py lines 665-669). -/
def assistantToolsMsg (cs : List ToolCall) : Message :=
  { role := "assistant", content := "", toolCalls := cs, toolCallId := none, name := none }

/-- A plain user message. -/
def userMsg (content : String) : Message :=
  { role := "user", content := content, toolCalls := [], toolCallId := none, name := none }

/-- A plain assistant message. -/
def assistantMsg (content : String) : Message :=
  { role := "assistant", content := content, toolCalls := [], toolCallId := none, name := none }

/-! ## Single-agent Round Loop (`WebMCPAgent.chat_stream`, mcp_agent.py 500-834) -/

/-- One finalized model invocation as the streaming oracle reports it:
`ok tokens content toolCalls usage` is a completed stream (the content
tokens streamed before `on_chat_model_end`, the finalized content, the
finalized tool-call list with None flattened to [], whether token usage
metadata was present), `err tokens multimodal msg` is an invocation that
raised after streaming `tokens`, where `multimodal` is the oracle answer
of `MultimodalProcessor.is_multimodal_error` on the message. -/
inductive ModelResult where
  | ok (tokens : List String) (content : String) (toolCalls : List ToolCall) (usage : Bool)
  | err (tokens : List String) (multimodal : Bool) (msg : String)

/-- `self._non_multimodal_models.add(key)` — Python set add. -/
def insertKey (k : String) (l : List String) : List String :=
  if l.contains k then l else l ++ [k]

/-- mcp_agent.py line 605. -/
def warnChunkText : String :=
  "⚠️ 当前模型不支持图片识别，已自动转换为纯文本模式处理。\n\n"

/-- mcp_agent.py line 830. -/
def budgetMsg : String :=
  "已达到最大推理轮数，请缩小问题范围或稍后重试。"

/-- The token streaming loop of the first invocation attempt
(mcp_agent.py lines 529-551): each streamed content piece first emits
`ai_response_start` if the combined response has not started yet, then
is emitted as an `ai_response_chunk`.  Returns the updated
`combined_response_started` flag and event list. -/
def emitTokens (toks : List String) (started : Bool) (events : List Event) : Bool × List Event :=
  match toks with
  | [] => (started, events)
  | t :: ts =>
    if started then emitTokens ts true (events ++ [Event.chunk t])
    else emitTokens ts true (events ++ [Event.start, Event.chunk t])

/-- The state threaded through the rounds of one `chat_stream` turn. -/
structure AgentState where
  history : List Message
  events : List Event
  combinedStarted : Bool
  failures : Nat
  errHistory : List (String × String)
  nonMultimodal : List String
  script : List ModelResult
  roundIndex : Nat
  done : Bool
  finalText : Option String

/-- Output of the streaming-detection phase of one round (mcp_agent.py
lines 513-653): the finalized tool-call list and content, the tokens
buffered this round, the `response_started` flag, and the updated
turn-level state pieces. -/
structure DetectOut where
  toolCalls : List ToolCall
  content : String
  buffered : List String
  responseStarted : Bool
  combinedStarted : Bool
  events : List Event
  nonMM : List String
  script : List ModelResult
  usage : Bool

/-- The streaming detection primitive of one round, including the
multimodal-downgrade retry (mcp_agent.py lines 513-653).  On a
multimodal error the model key is added to `_non_multimodal_models`, the
start event is emitted if needed, the downgrade notice chunk is emitted,
and the invocation is retried once on the text-converted messages (the
conversion itself does not change the scripted oracle answer); tokens
streamed by the retry are emitted directly as chunks.  On any other
failure, or a failure of the retry, the round proceeds with no tool
calls and empty content. -/
def detect (modelKey : String) (combinedStarted : Bool) (events : List Event)
    (nonMM : List String) (script : List ModelResult) : DetectOut :=
  match script with
  | [] =>
    { toolCalls := [], content := "", buffered := [], responseStarted := false,
      combinedStarted := combinedStarted, events := events, nonMM := nonMM,
      script := [], usage := false }
  | ModelResult.ok toks content calls usage :: rest =>
    let p := emitTokens toks combinedStarted events
    { toolCalls := calls, content := content, buffered := toks,
      responseStarted := !toks.isEmpty, combinedStarted := p.1, events := p.2,
      nonMM := nonMM, script := rest, usage := usage }
  | ModelResult.err toks mm _emsg :: rest =>
    let p := emitTokens toks combinedStarted events
    if mm then
      let nonMM2 := insertKey modelKey nonMM
      let evs2 := (if p.1 then p.2 else p.2 ++ [Event.start]) ++ [Event.chunk warnChunkText]
      match rest with
      | [] =>
        { toolCalls := [], content := "", buffered := toks, responseStarted := !toks.isEmpty,
          combinedStarted := true, events := evs2, nonMM := nonMM2, script := [], usage := false }
      | ModelResult.ok toks2 content2 calls2 _u :: rest2 =>
        { toolCalls := calls2, content := content2, buffered := toks ++ toks2,
          responseStarted := !toks.isEmpty || !toks2.isEmpty, combinedStarted := true,
          events := evs2 ++ toks2.map Event.chunk, nonMM := nonMM2, script := rest2,
          usage := false }
      | ModelResult.err toks2 _ _ :: rest2 =>
        { toolCalls := [], content := "", buffered := toks ++ toks2,
          responseStarted := !toks.isEmpty || !toks2.isEmpty, combinedStarted := true,
          events := evs2 ++ toks2.map Event.chunk, nonMM := nonMM2, script := rest2,
          usage := false }
    else
      { toolCalls := [], content := "", buffered := toks, responseStarted := !toks.isEmpty,
        combinedStarted := p.1, events := p.2, nonMM := nonMM, script := rest, usage := false }

/-- State threaded through the tool batch of one round. -/
structure BatchOut where
  history : List Message
  events : List Event
  failures : Nat
  errHistory : List (String × String)
  roundErr : Bool

/-- Execution of one tool call of the batch (mcp_agent.py lines
676-746): resolve id, name and args, emit `tool_start`, look the tool up
by exact name (a miss yields a `tool_error` and an error result), invoke
it (an exception yields a `tool_error` and an error result; success
resets the consecutive-failure counter), and always append exactly one
tool message. -/
def runToolCall (tools : List ToolDef) (parse : String → Option Json)
    (i : Nat) (tc : ToolCall) (b : BatchOut) : BatchOut :=
  let tid := resolveId tc i
  let tname := resolveName tc
  let args := normalizeArgs parse (coalesceArgs tc.fnArgs tc.tcArgs)
  let b1 := { b with events := b.events ++ [Event.toolStart tid tname args none] }
  match findTool tools tname with
  | none =>
    let emsg := "工具 \x27" ++ tname ++ "\x27 未找到"
    { b1 with
        events := b1.events ++ [Event.toolError tid emsg none],
        history := b1.history ++ [toolMsg tid tname ("错误: " ++ emsg)],
        errHistory := b1.errHistory ++ [(tname, emsg)],
        roundErr := true }
  | some t =>
    match t.behavior args with
    | ToolOutcome.ok r =>
      { b1 with
          events := b1.events ++ [Event.toolEnd tid tname r none],
          history := b1.history ++ [toolMsg tid tname r],
          failures := 0 }
    | ToolOutcome.raise m =>
      let emsg := "工具执行出错: " ++ m
      { b1 with
          events := b1.events ++ [Event.toolError tid emsg none],
          history := b1.history ++ [toolMsg tid tname ("错误: " ++ emsg)],
          errHistory := b1.errHistory ++ [(tname, m)],
          roundErr := true }

/-- The `for i, tool_call in enumerate(tool_calls_to_run, 1)` loop
(`exit_to_stream` is never set in the source, so the loop always runs to
the end of the batch). -/
def runBatchAux (tools : List ToolDef) (parse : String → Option Json) :
    Nat → List ToolCall → BatchOut → BatchOut
  | _, [], b => b
  | i, c :: cs, b => runBatchAux tools parse (i + 1) cs (runToolCall tools parse i c b)

/-- `tool_error_history[-3:]`. -/
def lastN (n : Nat) (l : List (String × String)) : List (String × String) :=
  l.drop (l.length - n)

/-- mcp_agent.py lines 761-764. -/
def errorSummary (h : List (String × String)) : String :=
  String.intercalate "\n" ((lastN 3 h).map (fun p => "- " ++ p.1 ++ ": " ++ p.2))

/-- The synthetic fallback instruction (mcp_agent.py lines 767-775). -/
def fallbackPrompt (h : List (String × String)) : String :=
  "工具调用出现异常,请根据当前已有信息给用户一个合理的回复。\n\n错误情况:\n" ++
    errorSummary h ++
    "\n\n请告知用户:\n1. 系统暂时无法获取所需数据\n2. 根据对话历史,给出基于已知信息的建议或替代方案\n3. 语气友好专业,不要过分道歉"

/-- One round of the single-agent loop (the body of
`while round_index < max_rounds`, mcp_agent.py lines 508-826):
streaming detection, then either the tool branch (separator chunk when
tokens were streamed, `tool_plan`, assistant message with the calls, the
sequential batch, the consecutive-failure accounting and possibly the
fallback injection) or the answer branch (final text from the streamed
tokens or the finalized content, terminator event, optional token-usage
event, return). -/
def roundStep (tools : List ToolDef) (parse : String → Option Json) (modelKey : String)
    (st : AgentState) : AgentState :=
  let st0 := { st with roundIndex := st.roundIndex + 1 }
  let d := detect modelKey st.combinedStarted st.events st.nonMultimodal st.script
  if d.toolCalls.isEmpty then
    let finalText := if d.buffered.isEmpty then d.content else String.join d.buffered
    let evs :=
      if d.combinedStarted then d.events ++ [Event.endE ""]
      else (d.events ++ [Event.start]) ++
        (if finalText = "" then [] else [Event.chunk finalText]) ++ [Event.endE ""]
    let evs := if d.usage then evs ++ [Event.tokenUsage] else evs
    { st0 with
        events := evs,
        combinedStarted := true,
        nonMultimodal := d.nonMM,
        script := d.script,
        done := true,
        finalText := some finalText }
  else
    let evs :=
      if d.responseStarted && !d.buffered.isEmpty then d.events ++ [Event.chunk "\n\n"]
      else d.events
    let evs := evs ++ [Event.toolPlan d.toolCalls.length]
    let hist := st.history ++ [assistantToolsMsg d.toolCalls]
    let b := runBatchAux tools parse 1 d.toolCalls
      { history := hist, events := evs, failures := st.failures,
        errHistory := st.errHistory, roundErr := false }
    if b.roundErr then
      let f := b.failures + 1
      if 3 ≤ f then
        { st0 with
            history := b.history ++ [userMsg (fallbackPrompt b.errHistory)],
            events := b.events ++ [Event.fallbackTriggered f],
            combinedStarted := d.combinedStarted,
            nonMultimodal := d.nonMM,
            script := d.script,
            failures := 0,
            errHistory := [] }
      else
        { st0 with
            history := b.history,
            events := b.events,
            combinedStarted := d.combinedStarted,
            nonMultimodal := d.nonMM,
            script := d.script,
            failures := f,
            errHistory := b.errHistory }
    else
      { st0 with
          history := b.history,
          events := b.events,
          combinedStarted := d.combinedStarted,
          nonMultimodal := d.nonMM,
          script := d.script,
          failures := b.failures,
          errHistory := b.errHistory }

/-- The round loop with its remaining round budget as fuel. -/
def runRounds (tools : List ToolDef) (parse : String → Option Json) (modelKey : String) :
    Nat → AgentState → AgentState
  | 0, st => st
  | n + 1, st =>
    if st.done then st
    else runRounds tools parse modelKey n (roundStep tools parse modelKey st)

/-- The state after the `while round_index < max_rounds` loop
(max_rounds = 25, mcp_agent.py line 500).  `buildHistory` is the oracle
for the external history-formatting collaborator
(`message_processor.build_shared_history`); its Boolean argument is
`force_text_only = current_model_key in self._non_multimodal_models`
(mcp_agent.py lines 492-498). -/
def chatLoopResult (tools : List ToolDef) (parse : String → Option Json) (modelKey : String)
    (buildHistory : Bool → List Message) (nm0 : List String)
    (script : List ModelResult) : AgentState :=
  runRounds tools parse modelKey 25
    { history := buildHistory (nm0.contains modelKey),
      events := [Event.status], combinedStarted := false, failures := 0, errHistory := [],
      nonMultimodal := nm0, script := script, roundIndex := 0, done := false,
      finalText := none }

/-- A full `chat_stream` turn: the round loop, then — when the budget is
exhausted without an answer — the graceful terminal message (mcp_agent.py
lines 828-834; note the unconditional `ai_response_start` there). -/
def chatStream (tools : List ToolDef) (parse : String → Option Json) (modelKey : String)
    (buildHistory : Bool → List Message) (nm0 : List String)
    (script : List ModelResult) : AgentState :=
  let stF := chatLoopResult tools parse modelKey buildHistory nm0 script
  if stF.done then stF
  else
    { stF with
        events := stF.events ++ [Event.start, Event.chunk budgetMsg, Event.endE budgetMsg],
        finalText := some budgetMsg }

/-! ## Role Pipeline tool batch (`AgentOrchestrator.chat_stream`,
agent_orchestrator.py lines 181-243).

The per-call loop of the orchestrator: the allowlist check comes first
(`if tools_allowlist and tool_name and tool_name not in tools_allowlist`),
a rejected call gets a `tool_error` event and a tool message and is never
invoked; otherwise the args are normalized, `tool_start` is emitted, the
tool is resolved and invoked exactly as in the single-agent batch, and one
tool message is always appended to the role-scoped message list. -/

/-- Messages and events accumulated by the orchestrator tool batch. -/
structure OrchBatchOut where
  messages : List Message
  events : List Event

/-- One tool call of the orchestrator batch (agent_orchestrator.py lines
181-243). -/
def runOrchCall (allowlist : List String) (tools : List ToolDef)
    (parse : String → Option Json) (roleId : String) (i : Nat) (tc : ToolCall)
    (o : OrchBatchOut) : OrchBatchOut :=
  let tid := resolveId tc i
  let tname := resolveName tc
  if !allowlist.isEmpty && tname != "" && !allowlist.contains tname then
    { messages := o.messages ++ [toolMsg tid tname ("错误: 工具 \x27" ++ tname ++ "\x27 未被允许")],
      events := o.events ++ [Event.toolError tid ("工具 \x27" ++ tname ++ "\x27 不在允许列表中") (some roleId)] }
  else
    let args := normalizeArgs parse (coalesceArgs tc.fnArgs tc.tcArgs)
    let o1 : OrchBatchOut :=
      { o with events := o.events ++ [Event.toolStart tid tname args (some roleId)] }
    match findTool tools tname with
    | none =>
      let emsg := "工具 \x27" ++ tname ++ "\x27 未找到"
      { messages := o1.messages ++ [toolMsg tid tname ("错误: " ++ emsg)],
        events := o1.events ++ [Event.toolError tid emsg (some roleId)] }
    | some t =>
      match t.behavior args with
      | ToolOutcome.ok r =>
        { messages := o1.messages ++ [toolMsg tid tname r],
          events := o1.events ++ [Event.toolEnd tid tname r (some roleId)] }
      | ToolOutcome.raise m =>
        let emsg := "工具执行出错: " ++ m
        { messages := o1.messages ++ [toolMsg tid tname ("错误: " ++ emsg)],
          events := o1.events ++ [Event.toolError tid emsg (some roleId)] }

/-- The `for i, tool_call in enumerate(tool_calls, 1)` loop of one
orchestrator role iteration. -/
def runOrchBatchAux (allowlist : List String) (tools : List ToolDef)
    (parse : String → Option Json) (roleId : String) :
    Nat → List ToolCall → OrchBatchOut → OrchBatchOut
  | _, [], o => o
  | i, c :: cs, o =>
    runOrchBatchAux allowlist tools parse roleId (i + 1) cs
      (runOrchCall allowlist tools parse roleId i c o)

/-! ## Model binding construction (`ModelManager.get_or_create_llm_instances`,
model_manager.py lines 236-278). -/

/-- One model profile configuration (the fields the construction reads;
empty string models a missing/empty value, which is falsy in Python). -/
structure ProfileCfg where
  apiKey : String
  baseUrl : String
  model : String

/-- The ambient credential environment: `OPENAI_API_KEY` and
`OPENAI_BASE_URL` (None models an unset variable). -/
structure EnvState where
  key : Option String
  base : Option String

/-- A constructed `ChatOpenAI` instance.  The client reads credentials
ambiently, so the instance records the environment it saw at
construction time. -/
structure LLMInst where
  model : String
  envKey : Option String
  envBase : Option String

/-- The bundle `{"llm", "llm_nontool", "llm_tools"}`; `llm_tools` is
`base_llm.bind_tools(tools)`, recorded as the bound tool names. -/
structure LLMBundle where
  llm : LLMInst
  llmNontool : LLMInst
  boundTools : List String

/-- The mutable `ModelManager` state: the ambient environment and the
`_llm_cache` keyed by profile id. -/
structure MMState where
  env : EnvState
  cache : List (String × LLMBundle)

/-- Dictionary lookup by key. -/
def lookupA {α : Type} (l : List (String × α)) (k : String) : Option α :=
  (l.find? (fun p => p.1 == k)).map (fun p => p.2)

/-- Dictionary assignment `d[k] = v`.  The cache is observed only
through `lookupA`, for which front insertion is extensionally the same
as in-place update. -/
def cacheSet {α : Type} (k : String) (v : α) (l : List (String × α)) : List (String × α) :=
  (k, v) :: l

/-- Profile id resolution (model_manager.py lines 238-240):
`pid = profile_id or self.default_profile_id`, then fall back to the
default when the resolved id is not a declared profile. -/
def resolvePid (profiles : List (String × ProfileCfg)) (defaultPid : String)
    (profileId : Option String) : String :=
  let pid0 := pyOrStr profileId defaultPid
  if (lookupA profiles pid0).isSome then pid0 else defaultPid

/-- The configuration the construction reads for the resolved profile id
(model_manager.py line 245). -/
def profileCfgOf (profiles : List (String × ProfileCfg)) (defaultPid : String)
    (profileId : Option String) : ProfileCfg :=
  (lookupA profiles (resolvePid profiles defaultPid profileId)).getD
    { apiKey := "", baseUrl := "", model := "" }

/-- The temporary credential override written before construction
(model_manager.py lines 251-254): each variable is overwritten only when
the profile value is truthy. -/
def overrideEnv (cfg : ProfileCfg) (env : EnvState) : EnvState :=
  { key := if cfg.apiKey = "" then env.key else some cfg.apiKey,
    base := if cfg.baseUrl = "" then env.base else some cfg.baseUrl }

/-- The restore step after construction (model_manager.py lines
270-274): each previous value is written back `if prev is not None`, so
a variable that was unset beforehand keeps the override. -/
def restoreEnv (prev env1 : EnvState) : EnvState :=
  { key := match prev.key with
      | some k => some k
      | none => env1.key,
    base := match prev.base with
      | some b0 => some b0
      | none => env1.base }

/-- `ModelManager.get_or_create_llm_instances` (model_manager.py lines
236-278): resolve the profile id (falling back to the default), return a
cached bundle if present, otherwise temporarily write the profile
credentials into the environment (only the truthy ones), construct the
instances under that environment, then restore each previous value
`if prev is not None` — an unset variable is NOT restored. -/
def getOrCreateLLM (profiles : List (String × ProfileCfg)) (defaultPid : String)
    (profileId : Option String) (tools : List String) (st : MMState) :
    LLMBundle × MMState :=
  let pid := resolvePid profiles defaultPid profileId
  match lookupA st.cache pid with
  | some b => (b, st)
  | none =>
    let cfg := profileCfgOf profiles defaultPid profileId
    let env1 := overrideEnv cfg st.env
    let inst : LLMInst := { model := cfg.model, envKey := env1.key, envBase := env1.base }
    let envF := restoreEnv st.env env1
    let bundle : LLMBundle := { llm := inst, llmNontool := inst, boundTools := tools }
    (bundle, { env := envF, cache := cacheSet pid bundle st.cache })

/-! ## Observation helpers and characterization lemmas -/

/-- Number of `ai_response_start` events in a trace. -/
def countStartEv : List Event → Nat
  | [] => 0
  | Event.start :: r => countStartEv r + 1
  | _ :: r => countStartEv r

/-- Number of `ai_response_end` events in a trace. -/
def countEndEv : List Event → Nat
  | [] => 0
  | Event.endE _ :: r => countEndEv r + 1
  | _ :: r => countEndEv r

/-- Number of `fallback_triggered` events in a trace. -/
def countFallbackEv : List Event → Nat
  | [] => 0
  | Event.fallbackTriggered _ :: r => countFallbackEv r + 1
  | _ :: r => countFallbackEv r

/-- Number of `tool_start` events in a trace. -/
def countToolStartEv : List Event → Nat
  | [] => 0
  | Event.toolStart _ _ _ _ :: r => countToolStartEv r + 1
  | _ :: r => countToolStartEv r

/-- Number of tool-role messages carrying a given `tool_call_id`. -/
def countToolMsgWithId : List Message → String → Nat
  | [], _ => 0
  | m :: r, tid =>
    (if m.role = "tool" ∧ m.toolCallId = some tid then 1 else 0) + countToolMsgWithId r tid

/-- Occurrences of a string in a list. -/
def countStr : List String → String → Nat
  | [], _ => 0
  | s :: r, x => (if s = x then 1 else 0) + countStr r x

/-- The resolved ids of a tool-call batch, enumerating from `i`. -/
def resolvedIds : List ToolCall → Nat → List String
  | [], _ => []
  | c :: cs, i => resolveId c i :: resolvedIds cs (i + 1)

/-- A tool call counts as failed when its name resolves to no registered
tool or the invocation raises. -/
def callFails (tools : List ToolDef) (parse : String → Option Json) (tc : ToolCall) : Bool :=
  match findTool tools (resolveName tc) with
  | none => true
  | some t =>
    match t.behavior (normalizeArgs parse (coalesceArgs tc.fnArgs tc.tcArgs)) with
    | ToolOutcome.ok _ => false
    | ToolOutcome.raise _ => true

/-- The content of the tool message a single-agent batch call appends. -/
def callResult (tools : List ToolDef) (parse : String → Option Json) (tc : ToolCall) : String :=
  match findTool tools (resolveName tc) with
  | none => "错误: " ++ ("工具 \x27" ++ resolveName tc ++ "\x27 未找到")
  | some t =>
    match t.behavior (normalizeArgs parse (coalesceArgs tc.fnArgs tc.tcArgs)) with
    | ToolOutcome.ok r => r
    | ToolOutcome.raise m => "错误: " ++ ("工具执行出错: " ++ m)

/-- The error-history entries one single-agent batch call appends. -/
def callErrs (tools : List ToolDef) (parse : String → Option Json) (tc : ToolCall) :
    List (String × String) :=
  match findTool tools (resolveName tc) with
  | none => [(resolveName tc, "工具 \x27" ++ resolveName tc ++ "\x27 未找到")]
  | some t =>
    match t.behavior (normalizeArgs parse (coalesceArgs tc.fnArgs tc.tcArgs)) with
    | ToolOutcome.ok _ => []
    | ToolOutcome.raise m => [(resolveName tc, m)]

/-- The events one single-agent batch call emits. -/
def callEvents (tools : List ToolDef) (parse : String → Option Json) (i : Nat)
    (tc : ToolCall) : List Event :=
  let tid := resolveId tc i
  let tname := resolveName tc
  let args := normalizeArgs parse (coalesceArgs tc.fnArgs tc.tcArgs)
  Event.toolStart tid tname args none ::
    (match findTool tools tname with
    | none => [Event.toolError tid ("工具 \x27" ++ tname ++ "\x27 未找到") none]
    | some t =>
      match t.behavior args with
      | ToolOutcome.ok r => [Event.toolEnd tid tname r none]
      | ToolOutcome.raise m => [Event.toolError tid ("工具执行出错: " ++ m) none])

/-- The tool messages a single-agent batch appends, one per call. -/
def batchMsgs (tools : List ToolDef) (parse : String → Option Json) :
    Nat → List ToolCall → List Message
  | _, [] => []
  | i, c :: cs =>
    toolMsg (resolveId c i) (resolveName c) (callResult tools parse c) ::
      batchMsgs tools parse (i + 1) cs

/-- The error-history entries a single-agent batch appends. -/
def batchErrs (tools : List ToolDef) (parse : String → Option Json) :
    List ToolCall → List (String × String)
  | [] => []
  | c :: cs => callErrs tools parse c ++ batchErrs tools parse cs

/-- The events a single-agent batch emits. -/
def batchEvents (tools : List ToolDef) (parse : String → Option Json) :
    Nat → List ToolCall → List Event
  | _, [] => []
  | i, c :: cs => callEvents tools parse i c ++ batchEvents tools parse (i + 1) cs

theorem runToolCall_eq (tools : List ToolDef) (parse : String → Option Json)
    (i : Nat) (tc : ToolCall) (b : BatchOut) :
    runToolCall tools parse i tc b =
      { history := b.history ++ [toolMsg (resolveId tc i) (resolveName tc) (callResult tools parse tc)],
        events := b.events ++ callEvents tools parse i tc,
        failures := if callFails tools parse tc then b.failures else 0,
        errHistory := b.errHistory ++ callErrs tools parse tc,
        roundErr := b.roundErr || callFails tools parse tc } := by
  unfold runToolCall callResult callEvents callFails callErrs
  cases h : findTool tools (resolveName tc) with
  | none => simp [h]
  | some t =>
    cases hb : t.behavior (normalizeArgs parse (coalesceArgs tc.fnArgs tc.tcArgs)) with
    | ok r => simp [h, hb]
    | raise m => simp [h, hb]

theorem runBatchAux_eq (tools : List ToolDef) (parse : String → Option Json) :
    ∀ (cs : List ToolCall) (i : Nat) (b : BatchOut),
      runBatchAux tools parse i cs b =
        { history := b.history ++ batchMsgs tools parse i cs,
          events := b.events ++ batchEvents tools parse i cs,
          failures :=
            if cs.any (fun c => !callFails tools parse c) then 0 else b.failures,
          errHistory := b.errHistory ++ batchErrs tools parse cs,
          roundErr := b.roundErr || cs.any (fun c => callFails tools parse c) } := by
  intro cs
  induction cs with
  | nil => intro i b; simp [runBatchAux, batchMsgs, batchEvents, batchErrs]
  | cons c cs ih =>
    intro i b
    rw [runBatchAux, ih, runToolCall_eq]
    cases h : callFails tools parse c <;>
      simp [h, batchMsgs, batchEvents, batchErrs, List.append_assoc, Bool.or_assoc]

/-- Events emitted while streaming tokens: a `response_start` first when
the combined response had not started, then one chunk per token. -/
def tokenEvts : Bool → List String → List Event
  | _, [] => []
  | true, t :: ts => Event.chunk t :: tokenEvts true ts
  | false, t :: ts => Event.start :: Event.chunk t :: tokenEvts true ts

theorem emitTokens_eq :
    ∀ (toks : List String) (started : Bool) (events : List Event),
      emitTokens toks started events =
        (started || !toks.isEmpty, events ++ tokenEvts started toks) := by
  intro toks
  induction toks with
  | nil => intro started events; simp [emitTokens, tokenEvts]
  | cons t ts ih =>
    intro started events
    cases started with
    | true => rw [emitTokens]; simp [ih, tokenEvts]
    | false => rw [emitTokens]; simp [ih, tokenEvts]

/-- Whether the orchestrator allowlist check rejects a call: the
allowlist is nonempty, the resolved name is truthy, and the name is not
in the allowlist. -/
def orchRejected (allowlist : List String) (tc : ToolCall) : Bool :=
  !allowlist.isEmpty && resolveName tc != "" && !allowlist.contains (resolveName tc)

/-- The content of the tool message an orchestrator batch call appends. -/
def orchCallContent (allowlist : List String) (tools : List ToolDef)
    (parse : String → Option Json) (tc : ToolCall) : String :=
  if orchRejected allowlist tc then
    "错误: 工具 \x27" ++ resolveName tc ++ "\x27 未被允许"
  else callResult tools parse tc

/-- The events one orchestrator batch call emits. -/
def orchCallEvents (allowlist : List String) (tools : List ToolDef)
    (parse : String → Option Json) (roleId : String) (i : Nat) (tc : ToolCall) : List Event :=
  let tid := resolveId tc i
  let tname := resolveName tc
  if orchRejected allowlist tc then
    [Event.toolError tid ("工具 \x27" ++ tname ++ "\x27 不在允许列表中") (some roleId)]
  else
    let args := normalizeArgs parse (coalesceArgs tc.fnArgs tc.tcArgs)
    Event.toolStart tid tname args (some roleId) ::
      (match findTool tools tname with
      | none => [Event.toolError tid ("工具 \x27" ++ tname ++ "\x27 未找到") (some roleId)]
      | some t =>
        match t.behavior args with
        | ToolOutcome.ok r => [Event.toolEnd tid tname r (some roleId)]
        | ToolOutcome.raise m => [Event.toolError tid ("工具执行出错: " ++ m) (some roleId)])

theorem runOrchCall_eq (allowlist : List String) (tools : List ToolDef)
    (parse : String → Option Json) (roleId : String) (i : Nat) (tc : ToolCall)
    (o : OrchBatchOut) :
    runOrchCall allowlist tools parse roleId i tc o =
      { messages := o.messages ++
          [toolMsg (resolveId tc i) (resolveName tc) (orchCallContent allowlist tools parse tc)],
        events := o.events ++ orchCallEvents allowlist tools parse roleId i tc } := by
  unfold runOrchCall orchCallContent orchCallEvents orchRejected callResult
  by_cases hc :
      (!allowlist.isEmpty && resolveName tc != "" && !allowlist.contains (resolveName tc)) = true
  · simp only [if_pos hc]
  · simp only [if_neg hc]
    cases h : findTool tools (resolveName tc) with
    | none => simp [h]
    | some t =>
      cases hb : t.behavior (normalizeArgs parse (coalesceArgs tc.fnArgs tc.tcArgs)) with
      | ok r => simp [h, hb]
      | raise m => simp [h, hb]

/-- The tool messages an orchestrator batch appends, one per call. -/
def orchBatchMsgs (allowlist : List String) (tools : List ToolDef)
    (parse : String → Option Json) : Nat → List ToolCall → List Message
  | _, [] => []
  | i, c :: cs =>
    toolMsg (resolveId c i) (resolveName c) (orchCallContent allowlist tools parse c) ::
      orchBatchMsgs allowlist tools parse (i + 1) cs

/-- The events an orchestrator batch emits. -/
def orchBatchEvents (allowlist : List String) (tools : List ToolDef)
    (parse : String → Option Json) (roleId : String) : Nat → List ToolCall → List Event
  | _, [] => []
  | i, c :: cs =>
    orchCallEvents allowlist tools parse roleId i c ++
      orchBatchEvents allowlist tools parse roleId (i + 1) cs

theorem runOrchBatchAux_eq (allowlist : List String) (tools : List ToolDef)
    (parse : String → Option Json) (roleId : String) :
    ∀ (cs : List ToolCall) (i : Nat) (o : OrchBatchOut),
      runOrchBatchAux allowlist tools parse roleId i cs o =
        { messages := o.messages ++ orchBatchMsgs allowlist tools parse i cs,
          events := o.events ++ orchBatchEvents allowlist tools parse roleId i cs } := by
  intro cs
  induction cs with
  | nil => intro i o; simp [runOrchBatchAux, orchBatchMsgs, orchBatchEvents]
  | cons c cs ih =>
    intro i o
    rw [runOrchBatchAux, ih, runOrchCall_eq]
    simp [orchBatchMsgs, orchBatchEvents, List.append_assoc]

theorem countStr_eq_zero_of_not_mem : ∀ (l : List String) (x : String), x ∉ l → countStr l x = 0 := by
  intro l
  induction l with
  | nil => intro x _; rfl
  | cons s r ih =>
    intro x hx
    have hsx : ¬s = x := by
      intro he; exact hx (by rw [he]; exact List.mem_cons_self x r)
    have hxr : x ∉ r := fun hm => hx (List.mem_cons_of_mem s hm)
    simp [countStr, hsx, ih x hxr]

theorem countStr_eq_one_of_nodup_mem :
    ∀ (l : List String) (x : String), l.Nodup → x ∈ l → countStr l x = 1 := by
  intro l
  induction l with
  | nil => intro x _ hm; cases hm
  | cons s r ih =>
    intro x hnd hm
    rw [List.nodup_cons] at hnd
    rcases List.mem_cons.mp hm with he | hr
    · subst he
      simp [countStr, countStr_eq_zero_of_not_mem r x hnd.1]
    · have hsx : ¬s = x := by
        intro he; exact hnd.1 (by rw [he]; exact hr)
      simp [countStr, hsx, ih x hnd.2 hr]

theorem countToolMsgWithId_batchMsgs (tools : List ToolDef) (parse : String → Option Json) :
    ∀ (cs : List ToolCall) (i : Nat) (tid : String),
      countToolMsgWithId (batchMsgs tools parse i cs) tid = countStr (resolvedIds cs i) tid := by
  intro cs
  induction cs with
  | nil => intro i tid; rfl
  | cons c cs ih =>
    intro i tid
    simp only [batchMsgs, resolvedIds, countToolMsgWithId, countStr, toolMsg, ih]
    by_cases h : resolveId c i = tid <;> simp [h]

theorem countToolMsgWithId_append :
    ∀ (a b : List Message) (tid : String),
      countToolMsgWithId (a ++ b) tid = countToolMsgWithId a tid + countToolMsgWithId b tid := by
  intro a b tid
  induction a with
  | nil => simp [countToolMsgWithId]
  | cons m a ih =>
    have h1 : countToolMsgWithId ((m :: a) ++ b) tid =
        (if m.role = "tool" ∧ m.toolCallId = some tid then 1 else 0) +
          countToolMsgWithId (a ++ b) tid := rfl
    have h2 : countToolMsgWithId (m :: a) tid =
        (if m.role = "tool" ∧ m.toolCallId = some tid then 1 else 0) +
          countToolMsgWithId a tid := rfl
    rw [h1, h2, ih, Nat.add_assoc]

theorem countToolMsgWithId_orchBatchMsgs (allowlist : List String) (tools : List ToolDef)
    (parse : String → Option Json) :
    ∀ (cs : List ToolCall) (i : Nat) (tid : String),
      countToolMsgWithId (orchBatchMsgs allowlist tools parse i cs) tid =
        countStr (resolvedIds cs i) tid := by
  intro cs
  induction cs with
  | nil => intro i tid; rfl
  | cons c cs ih =>
    intro i tid
    simp only [orchBatchMsgs, resolvedIds, countToolMsgWithId, countStr, toolMsg, ih]
    by_cases h : resolveId c i = tid <;> simp [h]

theorem countFallbackEv_append :
    ∀ (a b : List Event), countFallbackEv (a ++ b) = countFallbackEv a + countFallbackEv b := by
  intro a b
  induction a with
  | nil => simp [countFallbackEv]
  | cons x a ih =>
    cases x <;> (simp [countFallbackEv, ih]; try omega)

theorem countFallbackEv_tokenEvts :
    ∀ (toks : List String) (b : Bool), countFallbackEv (tokenEvts b toks) = 0 := by
  intro toks
  induction toks with
  | nil => intro b; cases b <;> rfl
  | cons t ts ih => intro b; cases b <;> simp [tokenEvts, countFallbackEv, ih]

theorem countFallbackEv_callEvents (tools : List ToolDef) (parse : String → Option Json)
    (i : Nat) (tc : ToolCall) : countFallbackEv (callEvents tools parse i tc) = 0 := by
  unfold callEvents
  cases h : findTool tools (resolveName tc) with
  | none => simp [h, countFallbackEv]
  | some t =>
    cases hb : t.behavior (normalizeArgs parse (coalesceArgs tc.fnArgs tc.tcArgs)) <;>
      simp [h, hb, countFallbackEv]

theorem countFallbackEv_batchEvents (tools : List ToolDef) (parse : String → Option Json) :
    ∀ (cs : List ToolCall) (i : Nat), countFallbackEv (batchEvents tools parse i cs) = 0 := by
  intro cs
  induction cs with
  | nil => intro i; rfl
  | cons c cs ih =>
    intro i
    simp [batchEvents, countFallbackEv_append, countFallbackEv_callEvents, ih]

theorem endE_not_mem_tokenEvts :
    ∀ (toks : List String) (b : Bool) (s : String), Event.endE s ∉ tokenEvts b toks := by
  intro toks
  induction toks with
  | nil => intro b s; cases b <;> simp [tokenEvts]
  | cons t ts ih => intro b s; cases b <;> simp [tokenEvts] <;> exact ih true s

theorem endE_not_mem_callEvents (tools : List ToolDef) (parse : String → Option Json)
    (i : Nat) (tc : ToolCall) (s : String) : Event.endE s ∉ callEvents tools parse i tc := by
  unfold callEvents
  cases h : findTool tools (resolveName tc) with
  | none => simp [h]
  | some t =>
    cases hb : t.behavior (normalizeArgs parse (coalesceArgs tc.fnArgs tc.tcArgs)) <;> simp [h, hb]

theorem endE_not_mem_batchEvents (tools : List ToolDef) (parse : String → Option Json) :
    ∀ (cs : List ToolCall) (i : Nat) (s : String),
      Event.endE s ∉ batchEvents tools parse i cs := by
  intro cs
  induction cs with
  | nil => intro i s; simp [batchEvents]
  | cons c cs ih =>
    intro i s
    simp only [batchEvents, List.mem_append]
    rintro (h | h)
    · exact endE_not_mem_callEvents tools parse i c s h
    · exact ih (i + 1) s h

theorem batchMsgs_length (tools : List ToolDef) (parse : String → Option Json) :
    ∀ (cs : List ToolCall) (i : Nat), (batchMsgs tools parse i cs).length = cs.length := by
  intro cs
  induction cs with
  | nil => intro i; rfl
  | cons c cs ih => intro i; simp [batchMsgs, ih]

/-- The separator chunk emitted when tokens were streamed before a tool
decision. -/
def tokenSep (toks : List String) : List Event :=
  if toks.isEmpty then [] else [Event.chunk "\n\n"]

theorem endE_not_mem_tokenSep (toks : List String) (s : String) :
    Event.endE s ∉ tokenSep toks := by
  unfold tokenSep
  split_ifs <;> simp

theorem chunk_mem_tokenSep (toks : List String) (h : toks ≠ []) :
    Event.chunk "\n\n" ∈ tokenSep toks := by
  unfold tokenSep
  cases toks with
  | nil => exact absurd rfl h
  | cons a as => simp

theorem countFallbackEv_tokenSep (toks : List String) :
    countFallbackEv (tokenSep toks) = 0 := by
  unfold tokenSep
  split_ifs <;> rfl

/-- The consecutive-failure counter right after the batch, before the
per-round increment: 0 whenever some call of the batch succeeded,
otherwise the incoming value. -/
def batchBaseFailures (tools : List ToolDef) (parse : String → Option Json)
    (calls : List ToolCall) (f0 : Nat) : Nat :=
  if calls.any (fun c => !callFails tools parse c) then 0 else f0

/-- Full characterization of a round whose model invocation finalizes
with a non-empty tool-call list (the TOOL_DECIDED branch). -/
theorem roundStep_toolBranch (tools : List ToolDef) (parse : String → Option Json)
    (modelKey : String) (st : AgentState) (toks : List String) (content : String)
    (calls : List ToolCall) (usage : Bool) (rest : List ModelResult)
    (hs : st.script = ModelResult.ok toks content calls usage :: rest)
    (hc : calls ≠ []) :
    roundStep tools parse modelKey st =
      (let bf := batchBaseFailures tools parse calls st.failures
       let hasE := calls.any (fun c => callFails tools parse c)
       let evs := st.events ++ tokenEvts st.combinedStarted toks ++ tokenSep toks ++
         [Event.toolPlan calls.length] ++ batchEvents tools parse 1 calls
       let hist := st.history ++ assistantToolsMsg calls :: batchMsgs tools parse 1 calls
       let errH := st.errHistory ++ batchErrs tools parse calls
       if hasE = true ∧ 3 ≤ bf + 1 then
         { history := hist ++ [userMsg (fallbackPrompt errH)],
           events := evs ++ [Event.fallbackTriggered (bf + 1)],
           combinedStarted := st.combinedStarted || !toks.isEmpty,
           failures := 0,
           errHistory := [],
           nonMultimodal := st.nonMultimodal,
           script := rest,
           roundIndex := st.roundIndex + 1,
           done := st.done,
           finalText := st.finalText }
       else
         { history := hist,
           events := evs,
           combinedStarted := st.combinedStarted || !toks.isEmpty,
           failures := if hasE then bf + 1 else bf,
           errHistory := errH,
           nonMultimodal := st.nonMultimodal,
           script := rest,
           roundIndex := st.roundIndex + 1,
           done := st.done,
           finalText := st.finalText }) := by
  obtain ⟨c0, cs0, rfl⟩ := List.exists_cons_of_ne_nil hc
  unfold roundStep
  rw [hs]
  simp only [detect, emitTokens_eq]
  rw [runBatchAux_eq]
  simp [tokenSep, batchBaseFailures, List.append_assoc]
  split_ifs <;> simp_all [List.append_assoc]

/-- The projections the ANSWER_DECIDED branch settles: the round
terminates the loop and the final text is the joined streamed tokens, or
the finalized content when none were streamed. -/
theorem roundStep_answerBranch (tools : List ToolDef) (parse : String → Option Json)
    (modelKey : String) (st : AgentState) (toks : List String) (content : String)
    (usage : Bool) (rest : List ModelResult)
    (hs : st.script = ModelResult.ok toks content [] usage :: rest) :
    (roundStep tools parse modelKey st).done = true ∧
    (roundStep tools parse modelKey st).finalText =
      some (if toks.isEmpty then content else String.join toks) ∧
    (roundStep tools parse modelKey st).script = rest ∧
    (roundStep tools parse modelKey st).history = st.history := by
  unfold roundStep
  rw [hs]
  simp [detect, emitTokens_eq]

theorem insertKey_contains_self (k : String) (l : List String) :
    (insertKey k l).contains k = true := by
  unfold insertKey
  by_cases h : l.contains k = true
  · rw [if_pos h]; exact h
  · rw [if_neg h]
    induction l with
    | nil => simp
    | cons x l ih =>
      simp only [List.cons_append, List.contains_cons] at *
      by_cases hx : x == k
      · simp [hx]
      · simp only [Bool.or_eq_true] at h
        push_neg at h
        simp [hx, ih]

theorem insertKey_of_contains (k : String) (l : List String) (h : l.contains k = true) :
    insertKey k l = l := by
  unfold insertKey
  rw [if_pos h]

theorem join_if_empty (l : List String) :
    (if l.isEmpty then "" else String.join l) = String.join l := by
  cases l with
  | nil => rfl
  | cons a l => rfl

theorem lookupA_cacheSet {α : Type} (k : String) (v : α) (l : List (String × α)) :
    lookupA (cacheSet k v l) k = some v := by
  simp [lookupA, cacheSet, List.find?]

theorem truthy_ne_emptyStr (v : RawVal) (ht : v.isTruthy = true) : v ≠ RawVal.str "" := by
  intro he
  rw [he] at ht
  simp [RawVal.isTruthy] at ht

theorem coalesce2_ne_emptyStr (b : Option RawVal) : coalesce2 b ≠ RawVal.str "" := by
  unfold coalesce2
  cases b with
  | none => intro h; exact RawVal.noConfusion h
  | some v =>
    dsimp only
    by_cases ht : v.isTruthy = true
    · rw [if_pos ht]; exact truthy_ne_emptyStr v ht
    · rw [if_neg ht]; intro h; exact RawVal.noConfusion h

theorem coalesceArgs_ne_emptyStr (a b : Option RawVal) : coalesceArgs a b ≠ RawVal.str "" := by
  unfold coalesceArgs
  cases a with
  | none => exact coalesce2_ne_emptyStr b
  | some v =>
    dsimp only
    by_cases ht : v.isTruthy = true
    · rw [if_pos ht]; exact truthy_ne_emptyStr v ht
    · rw [if_neg ht]; exact coalesce2_ne_emptyStr b

theorem roundStep_roundIndex (tools : List ToolDef) (parse : String → Option Json)
    (modelKey : String) (st : AgentState) :
    (roundStep tools parse modelKey st).roundIndex = st.roundIndex + 1 := by
  unfold roundStep
  dsimp only
  split_ifs <;> rfl

theorem runRounds_roundIndex_le (tools : List ToolDef) (parse : String → Option Json)
    (modelKey : String) :
    ∀ (n : Nat) (st : AgentState),
      (runRounds tools parse modelKey n st).roundIndex ≤ st.roundIndex + n := by
  intro n
  induction n with
  | zero => intro st; simp [runRounds]
  | succ n ih =>
    intro st
    rw [runRounds]
    by_cases hd : st.done = true
    · rw [if_pos hd]; omega
    · rw [if_neg hd]
      have h1 := ih (roundStep tools parse modelKey st)
      rw [roundStep_roundIndex] at h1
      omega

/-- A `tool_end` or `tool_error` event. -/
def isToolFinishEv : Event → Bool
  | Event.toolEnd _ _ _ _ => true
  | Event.toolError _ _ _ => true
  | _ => false

/-! ## Concrete fixtures used by witnesses and counterexamples -/

/-- A `json.loads` oracle that always raises. -/
def parseNone : String → Option Json := fun _ => none

/-- A history-building collaborator returning an empty message list. -/
def emptyHistory : Bool → List Message := fun _ => []

/-- A tool call naming the registered tool `t`. -/
def sampleCall : ToolCall :=
  { id := some "id1", fnName := some "t", tcName := none, fnArgs := none, tcArgs := none }

/-- A registered tool that succeeds with result `r`. -/
def sampleTool : ToolDef := { name := "t", behavior := fun _ => ToolOutcome.ok "r" }

/-- A tool call naming the always-raising tool `boom`. -/
def failingCall : ToolCall :=
  { id := some "fid", fnName := some "boom", tcName := none, fnArgs := none, tcArgs := none }

/-- A registered tool that always raises. -/
def failingTool : ToolDef := { name := "boom", behavior := fun _ => ToolOutcome.raise "x" }

/-- A model script whose 25 rounds each stream one token and then
request one tool call: no round ever answers. -/
def scriptAllTools : List ModelResult :=
  List.replicate 25 (ModelResult.ok ["hi"] "" [sampleCall] false)

/-! ## Claim theorems -/

/-- C1: in every round of both the single-agent Round Loop and the Role
Pipeline, for every ToolCall id in the tool-call list returned by the
model invocation (resolved ids assumed pairwise distinct, which the data
model guarantees — ids are unique within a round), exactly one tool-role
message with that `tool_call_id` is appended to the message history by
the tool batch that runs before the next model invocation — including
unresolved tool names and raising tools, which also append exactly one
result message.  The batch is the only code appending tool-role messages
between two invocations. -/
theorem C1_tool_result_message_exactly_once
    (tools : List ToolDef) (parse : String → Option Json) (cs : List ToolCall) (tid : String)
    (hnd : (resolvedIds cs 1).Nodup) (hm : tid ∈ resolvedIds cs 1)
    (b : BatchOut) (allowlist : List String) (roleId : String) (o : OrchBatchOut)
    (modelKey : String) (st : AgentState) (toks : List String) (content : String)
    (usage : Bool) (rest : List ModelResult)
    (hs : st.script = ModelResult.ok toks content cs usage :: rest) :
    countToolMsgWithId ((runBatchAux tools parse 1 cs b).history.drop b.history.length) tid = 1 ∧
    countToolMsgWithId
      ((runOrchBatchAux allowlist tools parse roleId 1 cs o).messages.drop
        o.messages.length) tid = 1 ∧
    countToolMsgWithId
      ((roundStep tools parse modelKey st).history.drop st.history.length) tid = 1 := by
  refine ⟨?_, ?_, ?_⟩
  · rw [runBatchAux_eq]
    simp only [List.drop_left, countToolMsgWithId_batchMsgs]
    exact countStr_eq_one_of_nodup_mem _ _ hnd hm
  · rw [runOrchBatchAux_eq]
    simp only [List.drop_left, countToolMsgWithId_orchBatchMsgs]
    exact countStr_eq_one_of_nodup_mem _ _ hnd hm
  · have hc : cs ≠ [] := by
      intro he
      subst he
      simp [resolvedIds] at hm
    rw [roundStep_toolBranch tools parse modelKey st toks content cs usage rest hs hc]
    dsimp only
    split_ifs with htrig <;>
      simp [List.append_assoc, List.drop_left, countToolMsgWithId, countToolMsgWithId_append,
        countToolMsgWithId_batchMsgs, assistantToolsMsg, userMsg,
        countStr_eq_one_of_nodup_mem _ _ hnd hm]

theorem C1_witness :
    ((resolvedIds [sampleCall, failingCall] 1).Nodup ∧
      "id1" ∈ resolvedIds [sampleCall, failingCall] 1 ∧
      ((⟨[], [], false, 0, [], [],
          [ModelResult.ok [] "" [sampleCall, failingCall] false], 0, false,
          none⟩ : AgentState)).script =
        [ModelResult.ok [] "" [sampleCall, failingCall] false]) ∧
    countToolMsgWithId
      ((runBatchAux [sampleTool] parseNone 1 [sampleCall, failingCall]
          { history := [], events := [], failures := 0, errHistory := [], roundErr := false }
        ).history.drop 0) "id1" = 1 ∧
    countToolMsgWithId
      ((runOrchBatchAux ["t"] [sampleTool] parseNone "writer" 1 [sampleCall, failingCall]
          { messages := [], events := [] }).messages.drop 0) "id1" = 1 ∧
    countToolMsgWithId
      ((roundStep [sampleTool] parseNone "m@b"
          ⟨[], [], false, 0, [], [],
            [ModelResult.ok [] "" [sampleCall, failingCall] false], 0, false,
            none⟩).history.drop 0) "id1" = 1 := by
  refine ⟨⟨by decide, by decide, rfl⟩, ?_⟩
  exact C1_tool_result_message_exactly_once [sampleTool] parseNone [sampleCall, failingCall]
    "id1" (by decide) (by decide)
    { history := [], events := [], failures := 0, errHistory := [], roundErr := false }
    ["t"] "writer" { messages := [], events := [] }
    "m@b"
    ⟨[], [], false, 0, [], [], [ModelResult.ok [] "" [sampleCall, failingCall] false], 0, false,
      none⟩
    [] "" false [] rfl

/-- C2 (code bug): the claim — and the comment at mcp_agent.py line 502
("仅发送一次 start") — say exactly one `ai_response_start` per turn.  On
the round-budget-exhaustion path after tokens were streamed, the code
emits a second `ai_response_start` (mcp_agent.py line 831 is not guarded
by `combined_response_started`): with a 25-round script that streams one
token in round 1 and always requests tools, the turn trace carries two
`ai_response_start` events (and one `ai_response_end`). -/
theorem C2_budget_exhaustion_double_start :
    countStartEv (chatStream [sampleTool] parseNone "m@b" emptyHistory [] scriptAllTools).events
        = 2 ∧
    countEndEv (chatStream [sampleTool] parseNone "m@b" emptyHistory [] scriptAllTools).events
        = 1 := by
  exact ⟨rfl, rfl⟩

/-- C6: for every ToolCall, the argument normalization the code applies
to the coalesced raw arguments value (`fn.arguments or tool_call.args or
\x7b\x7d`) agrees with the specification rule — text parsed as structured
data with `\x7b"$raw": text\x7d` on parse failure, mappings used unchanged,
anything else wrapped as `\x7b"$raw": str(value)\x7d` — for every parse
oracle.  The two differ only at the unreachable raw value `""` (the
coalescing never produces an empty string, since Python `or` skips falsy
values). -/
theorem C6_argument_normalization (parse : String → Option Json) (tc : ToolCall) :
    normalizeArgs parse (coalesceArgs tc.fnArgs tc.tcArgs) =
      normalizeArgsSpec parse (coalesceArgs tc.fnArgs tc.tcArgs) := by
  have hne := coalesceArgs_ne_emptyStr tc.fnArgs tc.tcArgs
  cases hv : coalesceArgs tc.fnArgs tc.tcArgs with
  | str s =>
    rw [hv] at hne
    have hs : ¬s = "" := by
      intro he
      exact hne (by rw [he])
    simp [normalizeArgs, normalizeArgsSpec, hs]
  | map kvs => rfl
  | other rendered t => rfl

/-- C7: the Round Loop runs at most 25 rounds; when the budget is
exhausted without an ANSWER_DECIDED round, it emits the fixed graceful
terminal message (as start/chunk/end events appended to the loop trace)
and returns it as the final text, raising no exception (the embedding is
a total function). -/
theorem C7_round_budget (tools : List ToolDef) (parse : String → Option Json)
    (modelKey : String) (buildHistory : Bool → List Message) (nm0 : List String)
    (script : List ModelResult)
    (h : (chatLoopResult tools parse modelKey buildHistory nm0 script).done = false) :
    (chatStream tools parse modelKey buildHistory nm0 script).roundIndex ≤ 25 ∧
    (chatStream tools parse modelKey buildHistory nm0 script).events =
      (chatLoopResult tools parse modelKey buildHistory nm0 script).events ++
        [Event.start, Event.chunk budgetMsg, Event.endE budgetMsg] ∧
    (chatStream tools parse modelKey buildHistory nm0 script).finalText = some budgetMsg := by
  have hle : (chatLoopResult tools parse modelKey buildHistory nm0 script).roundIndex ≤ 25 := by
    unfold chatLoopResult
    have h25 := runRounds_roundIndex_le tools parse modelKey 25
      { history := buildHistory (nm0.contains modelKey),
        events := [Event.status], combinedStarted := false, failures := 0, errHistory := [],
        nonMultimodal := nm0, script := script, roundIndex := 0, done := false,
        finalText := none }
    simpa using h25
  unfold chatStream
  dsimp only
  rw [if_neg (show ¬((chatLoopResult tools parse modelKey buildHistory nm0 script).done = true) by
    rw [h]; simp)]
  exact ⟨hle, rfl, rfl⟩

theorem C7_witness :
    (chatLoopResult [sampleTool] parseNone "m@b" emptyHistory [] scriptAllTools).done = false ∧
    ((chatStream [sampleTool] parseNone "m@b" emptyHistory [] scriptAllTools).roundIndex ≤ 25 ∧
      (chatStream [sampleTool] parseNone "m@b" emptyHistory [] scriptAllTools).events =
        (chatLoopResult [sampleTool] parseNone "m@b" emptyHistory [] scriptAllTools).events ++
          [Event.start, Event.chunk budgetMsg, Event.endE budgetMsg] ∧
      (chatStream [sampleTool] parseNone "m@b" emptyHistory [] scriptAllTools).finalText =
        some budgetMsg) := by
  exact ⟨rfl, C7_round_budget [sampleTool] parseNone "m@b" emptyHistory [] scriptAllTools rfl⟩

/-- C3: for every round whose model invocation completes normally:
a non-empty tool-call list makes the round TOOL_DECIDED — the loop does
not terminate, the streamed tokens are not reused as the final answer
(the final-text slot is untouched), no terminator (`ai_response_end`)
event is emitted in the round, and when tokens were streamed a separator
chunk "\n\n" is emitted instead; an empty tool-call list makes the round
ANSWER_DECIDED — the loop terminates and the final answer is the
concatenation of the streamed tokens, or the finalized content when no
tokens were streamed. -/
theorem C3_streaming_decision_rule (tools : List ToolDef) (parse : String → Option Json)
    (modelKey : String) (st : AgentState) (toks : List String) (content : String)
    (calls : List ToolCall) (usage : Bool) (rest : List ModelResult)
    (hs : st.script = ModelResult.ok toks content calls usage :: rest) :
    (calls = [] →
      (roundStep tools parse modelKey st).done = true ∧
      (roundStep tools parse modelKey st).finalText =
        some (if toks.isEmpty then content else String.join toks)) ∧
    (calls ≠ [] →
      (roundStep tools parse modelKey st).done = st.done ∧
      (roundStep tools parse modelKey st).finalText = st.finalText ∧
      (∀ s, Event.endE s ∉ (roundStep tools parse modelKey st).events.drop st.events.length) ∧
      (toks ≠ [] →
        Event.chunk "\n\n" ∈ (roundStep tools parse modelKey st).events.drop st.events.length)) := by
  constructor
  · intro hc
    subst hc
    have h := roundStep_answerBranch tools parse modelKey st toks content usage rest hs
    exact ⟨h.1, h.2.1⟩
  · intro hc
    rw [roundStep_toolBranch tools parse modelKey st toks content calls usage rest hs hc]
    dsimp only
    split_ifs with htrig <;> refine ⟨rfl, rfl, ?_, ?_⟩
    all_goals
      first
      | (intro s
         simp only [List.append_assoc, List.drop_left]
         simp [endE_not_mem_tokenEvts, endE_not_mem_batchEvents, endE_not_mem_tokenSep]
         done)
      | (intro ht
         simp only [List.append_assoc, List.drop_left]
         simp [chunk_mem_tokenSep toks ht])

theorem C3_witness :
    ((⟨[], [Event.status], false, 0, [], [], [ModelResult.ok ["x"] "c" [] false], 0, false,
        none⟩ : AgentState)).script = [ModelResult.ok ["x"] "c" [] false] ∧
    (roundStep [] parseNone "k"
        ⟨[], [Event.status], false, 0, [], [], [ModelResult.ok ["x"] "c" [] false], 0, false,
          none⟩).done = true ∧
    (roundStep [] parseNone "k"
        ⟨[], [Event.status], false, 0, [], [], [ModelResult.ok ["x"] "c" [] false], 0, false,
          none⟩).finalText =
      some (if (["x"] : List String).isEmpty then "c" else String.join ["x"]) := by
  refine ⟨rfl, ?_⟩
  exact (C3_streaming_decision_rule [] parseNone "k"
    ⟨[], [Event.status], false, 0, [], [], [ModelResult.ok ["x"] "c" [] false], 0, false, none⟩
    ["x"] "c" [] false [] rfl).1 rfl

/-- A model script with one round whose batch carries three failing
calls, then an answering round. -/
def scriptThreeFailures : List ModelResult :=
  [ModelResult.ok [] "" [failingCall, failingCall, failingCall] false,
   ModelResult.ok [] "ans" [] false]

/-- C4 counterexample: the spec counts consecutive failures per tool
execution, so with three failing executions the claim demands that the
fallback instruction fire and the remaining calls of the batch be
short-circuited.  The code increments the counter only once per round,
after the entire batch has run: on a round whose batch holds three
failing calls, all three are executed (three `tool_start` events), no
`fallback_triggered` event is ever emitted, and the turn ends normally
on the next round. -/
theorem C4_counterexample :
    countFallbackEv
        (chatStream [failingTool] parseNone "m@b" emptyHistory [] scriptThreeFailures).events
      = 0 ∧
    countToolStartEv
        (chatStream [failingTool] parseNone "m@b" emptyHistory [] scriptThreeFailures).events
      = 3 ∧
    (chatStream [failingTool] parseNone "m@b" emptyHistory [] scriptThreeFailures).finalText
      = some "ans" := by
  exact ⟨rfl, rfl, rfl⟩

/-- The amended C4 property of one TOOL_DECIDED round. -/
def C4Prop (tools : List ToolDef) (parse : String → Option Json) (modelKey : String)
    (st : AgentState) (calls : List ToolCall) : Prop :=
  let st2 := roundStep tools parse modelKey st
  let hasE := calls.any (fun c => callFails tools parse c)
  let bf := if calls.any (fun c => !callFails tools parse c) then 0 else st.failures
  let trig : Prop := hasE = true ∧ 3 ≤ bf + 1
  st2.failures = (if trig then 0 else if hasE then bf + 1 else bf) ∧
  st2.errHistory = (if trig then [] else st.errHistory ++ batchErrs tools parse calls) ∧
  st2.history = st.history ++ assistantToolsMsg calls ::
    (batchMsgs tools parse 1 calls ++
      (if trig then [userMsg (fallbackPrompt (st.errHistory ++ batchErrs tools parse calls))]
       else [])) ∧
  countFallbackEv st2.events = countFallbackEv st.events + (if trig then 1 else 0) ∧
  (batchMsgs tools parse 1 calls).length = calls.length ∧
  st2.done = st.done

/-- C4 (amended): the consecutive-failure counter is updated once per
round, after the whole tool batch has executed — no pending call of the
batch is ever short-circuited (the batch appends one result message per
call).  Any successful call resets the counter to 0 at the moment it
completes, so after the batch the counter base is 0 whenever the batch
contained a success and the incoming value otherwise; if the batch
contained at least one failure the counter is then incremented, and when
it thereby reaches 3 exactly one synthetic fallback user message is
appended, exactly one `fallback_triggered` event is emitted, the counter
and the failure history are reset, and the loop advances to the next
round without raising. -/
theorem C4_fallback_accounting (tools : List ToolDef) (parse : String → Option Json)
    (modelKey : String) (st : AgentState) (toks : List String) (content : String)
    (calls : List ToolCall) (usage : Bool) (rest : List ModelResult)
    (hs : st.script = ModelResult.ok toks content calls usage :: rest)
    (hc : calls ≠ []) : C4Prop tools parse modelKey st calls := by
  unfold C4Prop
  rw [roundStep_toolBranch tools parse modelKey st toks content calls usage rest hs hc]
  dsimp only
  split_ifs with htrig <;>
    simp_all [countFallbackEv_append, countFallbackEv_tokenEvts, countFallbackEv_batchEvents,
      countFallbackEv_tokenSep, countFallbackEv, batchMsgs_length, batchBaseFailures,
      List.append_assoc]

theorem C4_witness :
    ((⟨[], [], false, 2, [], [], [ModelResult.ok [] "" [failingCall] false], 0, false,
        none⟩ : AgentState)).script = [ModelResult.ok [] "" [failingCall] false] ∧
    ([failingCall] : List ToolCall) ≠ [] ∧
    C4Prop [failingTool] parseNone "k"
      ⟨[], [], false, 2, [], [], [ModelResult.ok [] "" [failingCall] false], 0, false, none⟩
      [failingCall] := by
  refine ⟨rfl, by simp, ?_⟩
  exact C4_fallback_accounting [failingTool] parseNone "k"
    ⟨[], [], false, 2, [], [], [ModelResult.ok [] "" [failingCall] false], 0, false, none⟩
    [] "" [failingCall] false [] rfl (by simp)

/-- The model script of a turn whose first invocation raises a
multimodal-unsupported error and whose downgrade retry raises again. -/
def scriptRetryFails : List ModelResult :=
  [ModelResult.err [] true "mm1", ModelResult.err [] true "mm2"]

/-- C5 counterexample: the claim says the model identity is remembered
as text-only only after the first successful downgrade.  The code adds
the key to `_non_multimodal_models` upon detecting the error, before the
retry (mcp_agent.py line 599): on a turn whose downgrade retry also
fails — so no successful downgrade ever happens — the key is
nevertheless marked afterwards. -/
theorem C5_counterexample :
    (chatStream [] parseNone "m@b" emptyHistory [] scriptRetryFails).nonMultimodal = ["m@b"] ∧
    (chatStream [] parseNone "m@b" emptyHistory [] scriptRetryFails).done = true := by
  exact ⟨rfl, rfl⟩

/-- The amended C5 property of one round that hits a multimodal error. -/
def C5Prop (tools : List ToolDef) (parse : String → Option Json) (modelKey : String)
    (st : AgentState) (toks : List String) (r2 : ModelResult)
    (rest : List ModelResult) : Prop :=
  let st2 := roundStep tools parse modelKey st
  st2.script = rest ∧
  st2.nonMultimodal = insertKey modelKey st.nonMultimodal ∧
  st2.nonMultimodal.contains modelKey = true ∧
  (st.nonMultimodal.contains modelKey = true → st2.nonMultimodal = st.nonMultimodal) ∧
  (∀ t2 m2 e2, r2 = ModelResult.err t2 m2 e2 →
    st2.done = true ∧ st2.finalText = some (String.join (toks ++ t2)))

/-- C5 (amended): on a model invocation failing with the
multimodal-unsupported signature, the invocation is retried exactly once
(the round consumes exactly the two script entries), any failure of the
retry is terminal for the round (the turn ends with the tokens streamed
so far as the answer text), and the model identity is marked text-only
immediately upon detecting the error — before the retry and regardless
of whether the retry succeeds; marking is idempotent, so an identity is
marked at most once, and subsequent turns for a marked identity build
their history text-only up front (`chatLoopResult` passes
`nm0.contains modelKey` to the history builder). -/
theorem roundStep_mmRetry_projections (tools : List ToolDef) (parse : String → Option Json)
    (modelKey : String) (st : AgentState) (toks : List String) (emsg : String)
    (r2 : ModelResult) (rest : List ModelResult)
    (hs : st.script = ModelResult.err toks true emsg :: r2 :: rest) :
    (roundStep tools parse modelKey st).script = rest ∧
    (roundStep tools parse modelKey st).nonMultimodal = insertKey modelKey st.nonMultimodal := by
  cases r2 with
  | ok toks2 content2 calls2 u =>
    unfold roundStep
    rw [hs]
    simp only [detect, emitTokens_eq]
    constructor <;> (split_ifs <;> rfl)
  | err toks2 m2 e2 =>
    unfold roundStep
    rw [hs]
    simp only [detect, emitTokens_eq]
    constructor <;> rfl

theorem roundStep_mmRetryFail (tools : List ToolDef) (parse : String → Option Json)
    (modelKey : String) (st : AgentState) (toks : List String) (emsg : String)
    (toks2 : List String) (mm2 : Bool) (e2 : String) (rest : List ModelResult)
    (hs : st.script = ModelResult.err toks true emsg :: ModelResult.err toks2 mm2 e2 :: rest) :
    (roundStep tools parse modelKey st).done = true ∧
    (roundStep tools parse modelKey st).finalText = some (String.join (toks ++ toks2)) := by
  unfold roundStep
  rw [hs]
  simp only [detect, emitTokens_eq]
  refine ⟨rfl, ?_⟩
  simp [join_if_empty]
  intro h1 h2
  subst h1
  subst h2
  rfl

theorem C5_multimodal_marking (tools : List ToolDef) (parse : String → Option Json)
    (modelKey : String) (st : AgentState) (toks : List String) (emsg : String)
    (r2 : ModelResult) (rest : List ModelResult)
    (hs : st.script = ModelResult.err toks true emsg :: r2 :: rest) :
    C5Prop tools parse modelKey st toks r2 rest := by
  obtain ⟨hscr, hnm⟩ := roundStep_mmRetry_projections tools parse modelKey st toks emsg r2 rest hs
  unfold C5Prop
  refine ⟨hscr, hnm, ?_, ?_, ?_⟩
  · rw [hnm]
    exact insertKey_contains_self modelKey st.nonMultimodal
  · intro hmem
    rw [hnm]
    exact insertKey_of_contains modelKey st.nonMultimodal hmem
  · intro t2 m2 e2 heq
    subst heq
    exact roundStep_mmRetryFail tools parse modelKey st toks emsg t2 m2 e2 rest hs

theorem C5_witness :
    ((⟨[], [], false, 0, [], [], scriptRetryFails, 0, false, none⟩ : AgentState)).script =
      ModelResult.err [] true "mm1" :: ModelResult.err [] true "mm2" :: [] ∧
    C5Prop [] parseNone "m@b"
      ⟨[], [], false, 0, [], [], scriptRetryFails, 0, false, none⟩
      [] (ModelResult.err [] true "mm2") [] := by
  refine ⟨rfl, ?_⟩
  exact C5_multimodal_marking [] parseNone "m@b"
    ⟨[], [], false, 0, [], [], scriptRetryFails, 0, false, none⟩
    [] "mm1" (ModelResult.err [] true "mm2") [] rfl

/-- C8: in the Role Pipeline, a tool call whose (truthy) name falls
outside the configured (non-empty) allowlist is rejected immediately:
the only event emitted for it is a `tool_error`, a tool result message
recording the rejection is appended, and the tool is never invoked —
the outcome does not depend on the tool registry at all, so no tool
behaviour can be observed. -/
theorem C8_allowlist_rejection (allowlist : List String) (tools : List ToolDef)
    (parse : String → Option Json) (roleId : String) (i : Nat) (tc : ToolCall)
    (o : OrchBatchOut)
    (h1 : allowlist ≠ []) (h2 : resolveName tc ≠ "")
    (h3 : resolveName tc ∉ allowlist) :
    (runOrchCall allowlist tools parse roleId i tc o).events =
      o.events ++ [Event.toolError (resolveId tc i)
        ("工具 \x27" ++ resolveName tc ++ "\x27 不在允许列表中") (some roleId)] ∧
    (runOrchCall allowlist tools parse roleId i tc o).messages =
      o.messages ++ [toolMsg (resolveId tc i) (resolveName tc)
        ("错误: 工具 \x27" ++ resolveName tc ++ "\x27 未被允许")] ∧
    ∀ tools2 : List ToolDef,
      runOrchCall allowlist tools2 parse roleId i tc o =
        runOrchCall allowlist tools parse roleId i tc o := by
  have hr : orchRejected allowlist tc = true := by
    simp [orchRejected, h1, h2, h3]
  refine ⟨?_, ?_, ?_⟩
  · rw [runOrchCall_eq]
    simp [orchCallEvents, hr]
  · rw [runOrchCall_eq]
    simp [orchCallContent, hr]
  · intro tools2
    rw [runOrchCall_eq, runOrchCall_eq]
    simp [orchCallEvents, orchCallContent, hr]

theorem C8_witness :
    ((["t"] : List String) ≠ [] ∧ resolveName failingCall ≠ "" ∧
      resolveName failingCall ∉ (["t"] : List String)) ∧
    (runOrchCall ["t"] [sampleTool] parseNone "writer" 1 failingCall
        { messages := [], events := [] }).events =
      [] ++ [Event.toolError (resolveId failingCall 1)
        ("工具 \x27" ++ resolveName failingCall ++ "\x27 不在允许列表中") (some "writer")] ∧
    (runOrchCall ["t"] [sampleTool] parseNone "writer" 1 failingCall
        { messages := [], events := [] }).messages =
      [] ++ [toolMsg (resolveId failingCall 1) (resolveName failingCall)
        ("错误: 工具 \x27" ++ resolveName failingCall ++ "\x27 未被允许")] ∧
    ∀ tools2 : List ToolDef,
      runOrchCall ["t"] tools2 parseNone "writer" 1 failingCall
          { messages := [], events := [] } =
        runOrchCall ["t"] [sampleTool] parseNone "writer" 1 failingCall
          { messages := [], events := [] } := by
  refine ⟨⟨by decide, by decide, by decide⟩, ?_⟩
  exact C8_allowlist_rejection ["t"] [sampleTool] parseNone "writer" 1 failingCall
    { messages := [], events := [] } (by decide) (by decide) (by decide)

/-- C9 counterexample: the claim says credential construction restores
the previous ambient values for every prior credential state.  When
`OPENAI_API_KEY` was unset before construction (`prev_key is None`), the
restore step `if prev_key is not None` skips it, so the profile key
stays in the environment afterwards: constructing the binding for
profile `p` (key "k") from an empty environment leaves the ambient key
set to "k" instead of unset. -/
theorem C9_counterexample :
    (getOrCreateLLM [("p", { apiKey := "k", baseUrl := "", model := "m" })] "default"
        (some "p") [] { env := { key := none, base := none }, cache := [] }).2.env.key
      = some "k" := by
  rfl

/-- C9 (amended): for every profile and every prior credential state
(each variable independently set or unset): on a cache miss, the
instances are constructed under the overridden environment (each
variable carrying the profile value when truthy, the ambient value
otherwise); afterwards every variable that previously held a value is
restored to it, and every variable that was unset beforehand keeps the
override.  Bindings are constructed once per profile id and cached: a
cache hit returns the cached bundle and performs no mutation at all
(environment included), and an immediate second call with the same
arguments returns exactly the first call's bundle and state. -/
theorem C9_scoped_credentials (profiles : List (String × ProfileCfg)) (defaultPid : String)
    (profileId : Option String) (tools : List String) (st : MMState) :
    getOrCreateLLM profiles defaultPid profileId tools
        (getOrCreateLLM profiles defaultPid profileId tools st).2 =
      getOrCreateLLM profiles defaultPid profileId tools st ∧
    (∀ bdl, lookupA st.cache (resolvePid profiles defaultPid profileId) = some bdl →
      getOrCreateLLM profiles defaultPid profileId tools st = (bdl, st)) ∧
    (lookupA st.cache (resolvePid profiles defaultPid profileId) = none →
      (getOrCreateLLM profiles defaultPid profileId tools st).1.llm.envKey =
        (overrideEnv (profileCfgOf profiles defaultPid profileId) st.env).key ∧
      (getOrCreateLLM profiles defaultPid profileId tools st).1.llm.envBase =
        (overrideEnv (profileCfgOf profiles defaultPid profileId) st.env).base ∧
      (∀ k, st.env.key = some k →
        (getOrCreateLLM profiles defaultPid profileId tools st).2.env.key = some k) ∧
      (st.env.key = none →
        (getOrCreateLLM profiles defaultPid profileId tools st).2.env.key =
          (overrideEnv (profileCfgOf profiles defaultPid profileId) st.env).key) ∧
      (∀ b, st.env.base = some b →
        (getOrCreateLLM profiles defaultPid profileId tools st).2.env.base = some b) ∧
      (st.env.base = none →
        (getOrCreateLLM profiles defaultPid profileId tools st).2.env.base =
          (overrideEnv (profileCfgOf profiles defaultPid profileId) st.env).base)) := by
  refine ⟨?_, ?_, ?_⟩
  · cases hc : lookupA st.cache (resolvePid profiles defaultPid profileId) with
    | some bdl => simp [getOrCreateLLM, hc]
    | none => simp [getOrCreateLLM, hc, lookupA_cacheSet]
  · intro bdl hc
    simp [getOrCreateLLM, hc]
  · intro hc
    refine ⟨?_, ?_, ?_, ?_, ?_, ?_⟩
    · simp [getOrCreateLLM, hc]
    · simp [getOrCreateLLM, hc]
    · intro k hk
      simp [getOrCreateLLM, hc, restoreEnv, hk]
    · intro hk
      simp [getOrCreateLLM, hc, restoreEnv, hk]
    · intro b hb
      simp [getOrCreateLLM, hc, restoreEnv, hb]
    · intro hb
      simp [getOrCreateLLM, hc, restoreEnv, hb]

theorem C9_witness :
    (lookupA ((⟨⟨some "old", none⟩, []⟩ : MMState)).cache
        (resolvePid [("p", { apiKey := "k", baseUrl := "u", model := "m" })] "default"
          (some "p")) = none ∧
      ((⟨⟨some "old", none⟩, []⟩ : MMState)).env.key = some "old" ∧
      ((⟨⟨some "old", none⟩, []⟩ : MMState)).env.base = none) ∧
    (getOrCreateLLM [("p", { apiKey := "k", baseUrl := "u", model := "m" })] "default"
        (some "p") [] ⟨⟨some "old", none⟩, []⟩).2.env.key = some "old" ∧
    (getOrCreateLLM [("p", { apiKey := "k", baseUrl := "u", model := "m" })] "default"
        (some "p") [] ⟨⟨some "old", none⟩, []⟩).2.env.base =
      (overrideEnv
        (profileCfgOf [("p", { apiKey := "k", baseUrl := "u", model := "m" })] "default"
          (some "p"))
        (⟨⟨some "old", none⟩, []⟩ : MMState).env).base ∧
    getOrCreateLLM [("p", { apiKey := "k", baseUrl := "u", model := "m" })] "default"
        (some "p") []
        (getOrCreateLLM [("p", { apiKey := "k", baseUrl := "u", model := "m" })] "default"
          (some "p") [] ⟨⟨some "old", none⟩, []⟩).2 =
      getOrCreateLLM [("p", { apiKey := "k", baseUrl := "u", model := "m" })] "default"
        (some "p") [] ⟨⟨some "old", none⟩, []⟩ := by
  have h := C9_scoped_credentials [("p", { apiKey := "k", baseUrl := "u", model := "m" })]
    "default" (some "p") [] ⟨⟨some "old", none⟩, []⟩
  have hmiss := h.2.2 rfl
  exact ⟨⟨rfl, rfl, rfl⟩, hmiss.2.2.1 "old" rfl, hmiss.2.2.2.2.2 rfl, h.1⟩

/-- C10: in the Role Pipeline, a call rejected by the allowlist produces
its `tool_error` event with no preceding `tool_start`; a call that
passes the allowlist check produces a `tool_start` followed by exactly
one `tool_end` or `tool_error`, so the start/finish pairing holds
exactly for the calls that pass the check. -/
theorem C10_tool_start_only_for_allowed (allowlist : List String) (tools : List ToolDef)
    (parse : String → Option Json) (roleId : String) (i : Nat) (tc : ToolCall)
    (o : OrchBatchOut) :
    (orchRejected allowlist tc = true →
      (runOrchCall allowlist tools parse roleId i tc o).events =
        o.events ++ [Event.toolError (resolveId tc i)
          ("工具 \x27" ++ resolveName tc ++ "\x27 不在允许列表中") (some roleId)]) ∧
    (orchRejected allowlist tc = false →
      ∃ e, isToolFinishEv e = true ∧
        (runOrchCall allowlist tools parse roleId i tc o).events =
          o.events ++ [Event.toolStart (resolveId tc i) (resolveName tc)
            (normalizeArgs parse (coalesceArgs tc.fnArgs tc.tcArgs)) (some roleId), e]) := by
  constructor
  · intro hr
    rw [runOrchCall_eq]
    simp [orchCallEvents, hr]
  · intro hr
    rw [runOrchCall_eq]
    unfold orchCallEvents
    rw [if_neg (by rw [hr]; simp :
      ¬(orchRejected allowlist tc = true))]
    cases h : findTool tools (resolveName tc) with
    | none =>
      exact ⟨Event.toolError (resolveId tc i)
        ("工具 \x27" ++ resolveName tc ++ "\x27 未找到") (some roleId), rfl, by simp⟩
    | some t =>
      cases hbv : t.behavior (normalizeArgs parse (coalesceArgs tc.fnArgs tc.tcArgs)) with
      | ok r =>
        exact ⟨Event.toolEnd (resolveId tc i) (resolveName tc) r (some roleId), rfl,
          by simp [hbv]⟩
      | raise m =>
        exact ⟨Event.toolError (resolveId tc i)
          ("工具执行出错: " ++ m) (some roleId), rfl, by simp [hbv]⟩

theorem C10_witness :
    orchRejected ["t"] failingCall = true ∧
    (runOrchCall ["t"] [sampleTool] parseNone "planner" 1 failingCall
        { messages := [], events := [] }).events =
      [] ++ [Event.toolError (resolveId failingCall 1)
        ("工具 \x27" ++ resolveName failingCall ++ "\x27 不在允许列表中") (some "planner")] := by
  refine ⟨by decide, ?_⟩
  exact (C10_tool_start_only_for_allowed ["t"] [sampleTool] parseNone "planner" 1 failingCall
    { messages := [], events := [] }).1 (by decide)

end MCP
